import Mathlib

/-!
Verification development for the Job Orchestration and Progressive State
Monitoring subsystem of the Dapp3.6.7server repository.

The definitions below are a shallow embedding of the TypeScript sources
src/server/integrated-server.ts (class AsyncJobManager) and
src/server/services/zkToolExecutor.ts (class ZKToolExecutor).

Modelling conventions, justified against JavaScript and Node semantics:

- Promise-returning functions are modelled as total Lean functions into
  Option (Except String A).  A value none means the promise never
  settles; some (Except.error m) means it rejects with an Error whose
  message is m; some (Except.ok a) means it resolves with a.
- All errors thrown by the embedded code are Error objects with a string
  message, so the error instanceof Error test in the sources always
  takes the message branch; errors are therefore modelled as strings.
- Timestamps and elapsed durations are ambient inputs, carried in the
  Env structure as the fields now and elapsedMs, because the embedding
  does not model wall-clock time.
- The setTimeout handle installed in ZKToolExecutor.executeDirectly has
  a callback whose body is a throw statement.  In Node, an exception
  thrown from a timer callback propagates to the event loop as an
  uncaughtException; it cannot reject the promise that executeDirectly
  is awaiting.  Consequently the timer contributes no outcome to the
  promise being modelled, and a capability that never settles yields
  none for the whole pipeline.
- Calling an async function without await executes its body
  synchronously up to the first await expression.  AsyncJobManager
  .startJob calls this.processJob(job) without await, so the statements
  of processJob up to the await of executeTool run before startJob
  returns; this synchronous segment is the list startEvts below.
-/

/-! ### Character-list scanning (String.prototype.includes and the
label-regex matches used by the console interceptor) -/

/-- Embeds list-prefix testing used by the substring scan. -/
def isPrefixOfCL : List Char → List Char → Bool
  | [], _ => true
  | _ :: _, [] => false
  | a :: as, b :: bs => a == b && isPrefixOfCL as bs

/-- Embeds String.prototype.includes: pat occurs contiguously in s. -/
def containsSub (pat : List Char) (s : List Char) : Bool :=
  match s with
  | [] => isPrefixOfCL pat []
  | _ :: rest => isPrefixOfCL pat s || containsSub pat rest

/-- Embeds str.includes(pat) on Lean strings. -/
def containsSubS (pat s : String) : Bool :=
  containsSub pat.data s.data

/-- Returns the remainder of s after pat when pat is a prefix of s. -/
def restAfter : List Char → List Char → Option (List Char)
  | [], s => some s
  | _ :: _, [] => none
  | a :: as, b :: bs => if a == b then restAfter as bs else none

/-- Takes the maximal leading run of decimal digits, as the greedy
backslash-d-plus capture group does. -/
def takeDigits : List Char → List Char
  | [] => []
  | c :: rest => if c.isDigit then c :: takeDigits rest else []

/-- Embeds str.match on a regex of the form label followed by a digit
group: finds the leftmost position where pat is immediately followed by
at least one digit and returns the maximal digit run captured there. -/
def matchNum (pat : List Char) : List Char → Option String
  | [] => none
  | c :: rest =>
    match restAfter pat (c :: rest) with
    | some tail =>
      match tail with
      | d :: _ => if d.isDigit then some (String.mk (takeDigits tail)) else matchNum pat rest
      | [] => matchNum pat rest
    | none => matchNum pat rest

/-- Embeds str.match of the label regex on Lean strings. -/
def matchNumS (pat s : String) : Option String :=
  matchNum pat.data s.data

/-- Embeds parseInt on the captured digit strings (which are nonempty
digit runs by construction of matchNum). -/
def digitsToNat (s : String) : Nat :=
  s.data.foldl (fun a c => a * 10 + (c.toNat - 48)) 0

/-! ### OutputStateExtractor: the console.log interceptor installed by
ZKToolExecutor.executeDirectly (zkToolExecutor.ts lines 294 to 399) -/

/-- Phases of the currentPhase variable of the interceptor. -/
inductive Phase
  | before_state_process
  | before_state_capturing
  | verification_process
  | after_state_capturing
  | execution_completing
deriving DecidableEq, BEq

/-- Snapshot record accumulated in capturedBeforeState or
capturedAfterState.  The object is created holding only
totalCompaniesTracked; the remaining fields are attached by later
pattern matches and are none until then (undefined in JavaScript). -/
structure Snapshot where
  totalCompaniesTracked : String
  compliantCompaniesCount : Option String
  globalComplianceScore : Option String
  totalVerificationsGlobal : Option String
  registryVersion : Option String
  companiesRootHash : Option String
deriving DecidableEq

/-- Events sent through broadcastExecutionUpdate by the interceptor. -/
inductive CapEvent
  | phaseUpdate (p : Phase)
  | beforeCaptured (s : Snapshot)
  | afterCaptured (s : Snapshot)
deriving DecidableEq

/-- Mutable state of the interceptor closure: currentPhase,
capturedBeforeState, capturedAfterState, and the stream of broadcast
execution updates it emits. -/
structure CaptureState where
  phase : Phase
  before : Option Snapshot
  after : Option Snapshot
  events : List CapEvent
deriving DecidableEq

/-- Initial interceptor state: currentPhase is before_state_process and
both captured states are null. -/
def initCapture : CaptureState :=
  { phase := Phase.before_state_process, before := none, after := none, events := [] }

/-- Marker substring that moves the interceptor into the
before-state-capturing phase. -/
def beforeMarker : String := "📊 Smart Contract State BEFORE Verification:"

/-- Marker substring that moves the interceptor into the
after-state-capturing phase. -/
def afterMarker : String := "📊 Smart Contract State AFTER Verification:"

/-- First before-state pattern: creates capturedBeforeState only when it
is still null (zkToolExecutor.ts lines 318 to 323). -/
def bpTotal (st : CaptureState) (out : String) : CaptureState :=
  if containsSubS "Total Companies:" out then
    match matchNumS "Total Companies: " out with
    | some n =>
      if st.before.isNone then
        { st with before := some { totalCompaniesTracked := n,
                                   compliantCompaniesCount := none,
                                   globalComplianceScore := none,
                                   totalVerificationsGlobal := none,
                                   registryVersion := none,
                                   companiesRootHash := none } }
      else st
    | none => st
  else st

/-- Second before-state pattern: attaches only when capturedBeforeState
already exists (zkToolExecutor.ts lines 324 to 329). -/
def bpCompliant (st : CaptureState) (out : String) : CaptureState :=
  if containsSubS "Compliant Companies:" out then
    match matchNumS "Compliant Companies: " out, st.before with
    | some n, some b =>
      { st with before := some { b with compliantCompaniesCount := some n } }
    | _, _ => st
  else st

/-- Third before-state pattern: attaches the score, fills the fixed
defaults, emits before_state_captured, and advances the phase
(zkToolExecutor.ts lines 330 to 351). -/
def bpGlobal (st : CaptureState) (out : String) : CaptureState :=
  if containsSubS "Global Compliance Score:" out then
    match matchNumS "Global Compliance Score: " out, st.before with
    | some n, some b =>
      let snap : Snapshot :=
        { b with globalComplianceScore := some n,
                 totalVerificationsGlobal := some "0",
                 registryVersion := some "1",
                 companiesRootHash := some "initial-hash" }
      { st with before := some snap,
                phase := Phase.verification_process,
                events := st.events ++ [CapEvent.beforeCaptured snap,
                                        CapEvent.phaseUpdate Phase.verification_process] }
    | _, _ => st
  else st

/-- All three before-state pattern tests, run in their source order. -/
def beforePats (st : CaptureState) (out : String) : CaptureState :=
  bpGlobal (bpCompliant (bpTotal st out) out) out

/-- First after-state pattern (zkToolExecutor.ts lines 366 to 371). -/
def apTotal (st : CaptureState) (out : String) : CaptureState :=
  if containsSubS "Total Companies:" out then
    match matchNumS "Total Companies: " out with
    | some n =>
      if st.after.isNone then
        { st with after := some { totalCompaniesTracked := n,
                                  compliantCompaniesCount := none,
                                  globalComplianceScore := none,
                                  totalVerificationsGlobal := none,
                                  registryVersion := none,
                                  companiesRootHash := none } }
      else st
    | none => st
  else st

/-- Second after-state pattern (zkToolExecutor.ts lines 372 to 377). -/
def apCompliant (st : CaptureState) (out : String) : CaptureState :=
  if containsSubS "Compliant Companies:" out then
    match matchNumS "Compliant Companies: " out, st.after with
    | some n, some b =>
      { st with after := some { b with compliantCompaniesCount := some n } }
    | _, _ => st
  else st

/-- Third after-state pattern: fills the after defaults, emits
after_state_captured, and moves to execution_completing
(zkToolExecutor.ts lines 378 to 394). -/
def apGlobal (st : CaptureState) (out : String) : CaptureState :=
  if containsSubS "Global Compliance Score:" out then
    match matchNumS "Global Compliance Score: " out, st.after with
    | some n, some b =>
      let snap : Snapshot :=
        { b with globalComplianceScore := some n,
                 totalVerificationsGlobal := some "1",
                 registryVersion := some "1",
                 companiesRootHash := some "updated-hash" }
      { st with after := some snap,
                phase := Phase.execution_completing,
                events := st.events ++ [CapEvent.afterCaptured snap] }
    | _, _ => st
  else st

/-- All three after-state pattern tests, run in their source order. -/
def afterPats (st : CaptureState) (out : String) : CaptureState :=
  apGlobal (apCompliant (apTotal st out) out) out

/-- Before-marker test (zkToolExecutor.ts lines 307 to 314). -/
def markBefore (st : CaptureState) (out : String) : CaptureState :=
  if containsSubS beforeMarker out then
    { st with phase := Phase.before_state_capturing,
              events := st.events ++ [CapEvent.phaseUpdate Phase.before_state_capturing] }
  else st

/-- Before patterns guarded by the current phase (line 317). -/
def stepBefore (st : CaptureState) (out : String) : CaptureState :=
  if st.phase == Phase.before_state_capturing then beforePats st out else st

/-- After-marker test (zkToolExecutor.ts lines 355 to 362). -/
def markAfter (st : CaptureState) (out : String) : CaptureState :=
  if containsSubS afterMarker out then
    { st with phase := Phase.after_state_capturing,
              events := st.events ++ [CapEvent.phaseUpdate Phase.after_state_capturing] }
  else st

/-- After patterns guarded by the possibly updated phase (line 365). -/
def stepAfter (st : CaptureState) (out : String) : CaptureState :=
  if st.phase == Phase.after_state_capturing then afterPats st out else st

/-- One invocation of the replaced console.log on a line of diagnostic
output: the before marker test, the before patterns guarded by the
current phase, the after marker test, then the after patterns guarded
by the (possibly updated) phase, exactly in source order. -/
def handleLine (st : CaptureState) (out : String) : CaptureState :=
  stepAfter (markAfter (stepBefore (markBefore st out) out) out) out

/-- Processes a whole diagnostic stream line by line. -/
def processLines (st : CaptureState) (lines : List String) : CaptureState :=
  lines.foldl handleLine st

/-! ### ToolCatalog and ZKToolExecutor (zkToolExecutor.ts) -/

/-- Association list embedding the toolScriptMap object literal of
ZKToolExecutor.executeIntegratedTool, in source order. -/
def toolScriptPairs : List (String × String) :=
  [("get-GLEIF-verification-with-sign", "GLEIFOptimMultiCompanyVerificationTestWithSign.js"),
   ("get-Corporate-Registration-verification-with-sign", "CorporateRegistrationOptimMultiCompanyVerificationTestWithSign.js"),
   ("get-EXIM-verification-with-sign", "EXIMOptimMultiCompanyVerificationTestWithSign.js"),
   ("get-Composed-Compliance-verification-with-sign", "ComposedRecursiveOptim3LevelVerificationTestWithSign.js"),
   ("get-BSDI-compliance-verification", "BusinessStdIntegrityOptimMerkleVerificationTestWithSign.js"),
   ("get-BPI-compliance-verification", "BusinessProcessIntegrityOptimMerkleVerificationFileTestWithSign.js"),
   ("get-RiskLiquidityACTUS-Verifier-Test_adv_zk", "RiskLiquidityAdvancedOptimMerkleVerificationTestWithSign.js"),
   ("get-RiskLiquidityACTUS-Verifier-Test_Basel3_Withsign", "RiskLiquidityBasel3OptimMerkleVerificationTestWithSign.js"),
   ("get-RiskLiquidityBasel3Optim-Merkle-verification-with-sign", "RiskLiquidityBasel3OptimMerkleVerificationTestWithSign.js"),
   ("get-RiskLiquidityAdvancedOptimMerkle-verification-with-sign", "RiskLiquidityAdvancedOptimMerkleVerificationTestWithSign.js"),
   ("get-StablecoinProofOfReservesRisk-verification-with-sign", "RiskLiquidityStableCoinOptimMerkleVerificationTestWithSign.js"),
   ("execute-composed-proof-full-kyc", "ComposedRecursiveOptim3LevelVerificationTestWithSign.js"),
   ("execute-composed-proof-financial-risk", "ComposedRecursiveOptim3LevelVerificationTestWithSign.js"),
   ("execute-composed-proof-business-integrity", "ComposedRecursiveOptim3LevelVerificationTestWithSign.js"),
   ("execute-composed-proof-comprehensive", "ComposedRecursiveOptim3LevelVerificationTestWithSign.js")]

/-- Embeds the toolScriptMap lookup toolScriptMap[toolName]. -/
def toolScriptMap (toolName : String) : Option String :=
  (toolScriptPairs.find? (fun p => p.1 == toolName)).map (fun p => p.2)

/-- Embeds ZKToolExecutor.getAvailableTools (zkToolExecutor.ts lines
156 to 174), the static catalog list returned to callers. -/
def getAvailableTools : List String :=
  ["get-GLEIF-verification-with-sign",
   "get-Corporate-Registration-verification-with-sign",
   "get-EXIM-verification-with-sign",
   "get-Composed-Compliance-verification-with-sign",
   "get-BSDI-compliance-verification",
   "get-BPI-compliance-verification",
   "get-RiskLiquidityACTUS-Verifier-Test_adv_zk",
   "get-RiskLiquidityACTUS-Verifier-Test_Basel3_Withsign",
   "get-RiskLiquidityBasel3Optim-Merkle-verification-with-sign",
   "get-RiskLiquidityAdvancedOptimMerkle-verification-with-sign",
   "get-StablecoinProofOfReservesRisk-verification-with-sign",
   "execute-composed-proof-full-kyc",
   "execute-composed-proof-financial-risk",
   "execute-composed-proof-business-integrity",
   "execute-composed-proof-comprehensive"]

/-- Message of the error thrown for an unknown tool name
(zkToolExecutor.ts line 247): it enumerates the keys of toolScriptMap. -/
def unknownToolMsg (toolName : String) : String :=
  "Unknown tool: " ++ toolName ++ ". Available tools: " ++
    String.intercalate ", " (toolScriptPairs.map (fun p => p.1))

/-- Tools handled by a case of the switch statement in
ZKToolExecutor.executeDirectly (zkToolExecutor.ts lines 421 to 524);
every other tool reaches the default case, which throws. -/
def directSwitch (toolName : String) : Bool :=
  toolName == "get-GLEIF-verification-with-sign" ||
  toolName == "get-BSDI-compliance-verification" ||
  toolName == "get-RiskLiquidityBasel3Optim-Merkle-verification-with-sign" ||
  toolName == "get-EXIM-verification-with-sign" ||
  toolName == "get-Corporate-Registration-verification-with-sign" ||
  toolName == "get-BPI-compliance-verification" ||
  toolName == "get-StablecoinProofOfReservesRisk-verification-with-sign" ||
  toolName == "get-RiskLiquidityAdvancedOptimMerkle-verification-with-sign"

/-- Behaviour of one capability invocation (the awaited
executeXVerificationDirect call): it resolves carrying a success flag
after logging the given diagnostic lines, rejects with a message, or
never settles. -/
inductive CapOutcome
  | ok (success : Bool) (lines : List String)
  | raise (msg : String)
  | hang
deriving DecidableEq

/-- Environment of one tool execution: the request inputs plus the
ambient facts the pipeline consults (artifact presence on disk, whether
the imported module exports the expected direct function, the
capability behaviour, the current ISO timestamp, and the elapsed
milliseconds reported by the Date.now differences). -/
structure Env where
  toolName : String
  artifactPresent : Bool
  funcPresent : Bool
  cap : CapOutcome
  now : String
  elapsedMs : Nat
deriving DecidableEq

/-- Elapsed-time string interpolated into the responses. -/
def timeStr (env : Env) : String :=
  toString env.elapsedMs ++ "ms"

/-- Numeric deltas of the stateChanges record; a field is none when the
JavaScript subtraction involved an undefined operand and produced NaN. -/
structure StateChanges where
  totalCompaniesChanged : Option Int
  compliantCompaniesChanged : Option Int
  globalScoreChanged : Option Int
deriving DecidableEq

/-- Subtraction of parseInt results on optionally-present captured
fields; parseInt of a captured digit run is its numeric value and
parseInt of undefined is NaN, modelled none. -/
def parseIntSub (a b : Option String) : Option Int :=
  match a, b with
  | some x, some y => some ((digitsToNat x : Int) - (digitsToNat y : Int))
  | _, _ => none

/-- Response object built by ZKToolExecutor.executeDirectly on the
success path (zkToolExecutor.ts lines 552 to 591).  Fields irrelevant
to any claim keep their literal values so that the record stays a
faithful image of the source object. -/
structure DirectResponse where
  systemExecutionStatus : String
  verificationSuccess : Bool
  verificationStatus : String
  contractStateBefore : Option Snapshot
  contractStateAfter : Option Snapshot
  stateChanges : Option StateChanges
  status : String
  zkProofGenerated : Bool
  timestamp : String
  output : List String
  executionMode : String
  executionTime : String
deriving DecidableEq

/-- Value resolved by executeDirectly: success is the literal true and
result is the response object. -/
structure DirectResult where
  success : Bool
  result : DirectResponse
deriving DecidableEq

/-- Builds the executeDirectly response from the success flag of the
capability result and its diagnostic lines, running the output through
the interceptor. -/
def mkResponse (env : Env) (s : Bool) (lines : List String) : DirectResponse :=
  let cs := processLines initCapture lines
  { systemExecutionStatus := "success",
    verificationSuccess := s,
    verificationStatus := if s then "verification_passed" else "verification_failed",
    contractStateBefore := cs.before,
    contractStateAfter := cs.after,
    stateChanges :=
      match cs.before, cs.after with
      | some b, some a =>
        some { totalCompaniesChanged :=
                 parseIntSub (some a.totalCompaniesTracked) (some b.totalCompaniesTracked),
               compliantCompaniesChanged :=
                 parseIntSub a.compliantCompaniesCount b.compliantCompaniesCount,
               globalScoreChanged :=
                 parseIntSub a.globalComplianceScore b.globalComplianceScore }
      | _, _ => none,
    status := "completed",
    zkProofGenerated := true,
    timestamp := env.now,
    output := lines,
    executionMode := "direct-execution-only",
    executionTime := timeStr env }

/-- Embeds ZKToolExecutor.executeDirectly (zkToolExecutor.ts lines 274
to 615).  The switch default and the missing-export branches throw; a
rejecting capability is rethrown by the catch after broadcasting
execution_failed; a never-settling capability leaves the promise
pending forever, because the timeout callback merely throws into the
event loop and cannot reject this promise.  Some missing-export
messages in the source append the list of exported functions; the
claims do not depend on that suffix and the common prefix is kept. -/
def executeDirectly (env : Env) : Option (Except String DirectResult) :=
  if directSwitch env.toolName then
    if env.funcPresent then
      match env.cap with
      | CapOutcome.hang => none
      | CapOutcome.raise m => some (Except.error m)
      | CapOutcome.ok s lines => some (Except.ok { success := true, result := mkResponse env s lines })
    else some (Except.error "direct function not found in module")
  else some (Except.error ("Direct execution not implemented for tool: " ++ env.toolName))

/-- Message thrown when the compiled artifact is absent
(zkToolExecutor.ts line 266). -/
def artifactMissingMsg (file : String) : String :=
  "Compiled JavaScript file not found: " ++ file ++ ". Please run \x27npm run build\x27 first."

/-- Embeds ZKToolExecutor.executeIntegratedTool followed by
executeCompiledScript (zkToolExecutor.ts lines 225 to 272): unknown
tools throw with the catalog enumeration, a missing compiled artifact
throws the remediation message, otherwise execution proceeds directly. -/
def executeIntegratedTool (env : Env) : Option (Except String DirectResult) :=
  match toolScriptMap env.toolName with
  | none => some (Except.error (unknownToolMsg env.toolName))
  | some file =>
    if env.artifactPresent then executeDirectly env
    else some (Except.error (artifactMissingMsg file))

/-- Failure record returned in the result field of
ZKToolExecutor.executeTool when the inner pipeline threw
(zkToolExecutor.ts lines 211 to 221). -/
structure FailedRecord where
  status : String
  zkProofGenerated : Bool
  timestamp : String
  error : String
  executionMode : String
deriving DecidableEq

/-- Result payload of executeTool: either the executeDirectly response
(the inner result.result, which is always a truthy object, so the
literal fallback record of line 194 is unreachable) or the failure
record. -/
inductive ToolPayload
  | ok (r : DirectResponse)
  | failed (r : FailedRecord)
deriving DecidableEq

/-- Record resolved by ZKToolExecutor.executeTool. -/
structure ToolExecutionResult where
  success : Bool
  result : ToolPayload
  executionTime : String
deriving DecidableEq

/-- Embeds ZKToolExecutor.executeTool (zkToolExecutor.ts lines 176 to
223).  Both the try branch and the catch branch return a record, so the
promise never rejects; it fails to settle only when the inner pipeline
never settles. -/
def executeTool (env : Env) : Option (Except String ToolExecutionResult) :=
  match executeIntegratedTool env with
  | none => none
  | some (Except.ok r) =>
    some (Except.ok { success := r.success, result := ToolPayload.ok r.result,
                      executionTime := timeStr env })
  | some (Except.error m) =>
    some (Except.ok { success := false,
                      result := ToolPayload.failed
                        { status := "failed", zkProofGenerated := false,
                          timestamp := env.now, error := m,
                          executionMode := "integrated-server-direct-only" },
                      executionTime := timeStr env })

/-! ### AsyncJobManager (integrated-server.ts lines 22 to 141) -/

/-- Job status values. -/
inductive Status
  | pending
  | running
  | completed
  | failed
deriving DecidableEq, BEq

/-- Value assigned to job.result on the success path of processJob
(integrated-server.ts lines 78 to 84): the spread of the executeTool
record together with executionTimeMs, jobId, completedAt and mode; the
spread is modelled by embedding the record in the toolResult field. -/
structure JobResult where
  toolResult : ToolExecutionResult
  executionTimeMs : Nat
  jobId : String
  completedAt : String
  mode : String
deriving DecidableEq

/-- Job record of the registry (integrated-server.ts lines 22 to 32).
The presence of endTime is tracked as a Boolean because the embedding
does not model wall-clock dates. -/
structure Job where
  id : String
  toolName : String
  status : Status
  progress : Option Nat
  result : Option JobResult
  error : Option String
  hasEndTime : Bool
deriving DecidableEq

/-- Job object literal created by startJob (integrated-server.ts lines
46 to 52): status pending and nothing else set. -/
def initJob (jobId toolName : String) : Job :=
  { id := jobId, toolName := toolName, status := Status.pending,
    progress := none, result := none, error := none, hasEndTime := false }

/-- Primitive events of the startJob and processJob bodies: field
mutations of the shared job record and calls to broadcastJobUpdate. -/
inductive Ev
  | setStatus (s : Status)
  | setProgress (n : Nat)
  | setResult (r : JobResult)
  | setError (m : String)
  | setEndTime
  | publish
deriving DecidableEq

/-- Applies a mutation event to the job record; publish events leave
the record unchanged. -/
def applyEv (j : Job) : Ev → Job
  | Ev.setStatus s => { j with status := s }
  | Ev.setProgress n => { j with progress := some n }
  | Ev.setResult r => { j with result := some r }
  | Ev.setError m => { j with error := some m }
  | Ev.setEndTime => { j with hasEndTime := true }
  | Ev.publish => j

/-- Synchronous segment run inside the startJob call itself, in source
order: the creation of the pending job with its broadcast
(integrated-server.ts lines 46 to 55), then the statements of
processJob up to its first await (lines 64 to 71), which run
synchronously because processJob is invoked without await.  The leading
setStatus pending records the initialisation of the status field by the
object literal. -/
def startEvts : List Ev :=
  [Ev.setStatus Status.pending, Ev.publish,
   Ev.setStatus Status.running, Ev.setProgress 0, Ev.publish,
   Ev.setProgress 10, Ev.publish]

/-- Continuation of processJob after the await of executeTool
(integrated-server.ts lines 74 to 98): nothing if executeTool never
settles; the success finalisation if it resolves; the catch-branch
finalisation if it rejects.  The final broadcast of line 98 runs on
both settled paths. -/
def tailEvents (env : Env) (jobId : String) : List Ev :=
  match executeTool env with
  | none => []
  | some (Except.ok r) =>
    [Ev.setStatus Status.completed,
     Ev.setResult { toolResult := r, executionTimeMs := env.elapsedMs,
                    jobId := jobId, completedAt := env.now,
                    mode := "async-integrated-server" },
     Ev.setEndTime, Ev.setProgress 100, Ev.publish]
  | some (Except.error m) =>
    [Ev.setStatus Status.failed, Ev.setError m, Ev.setEndTime, Ev.publish]

/-- Full event trace of one job driven by startJob and processJob. -/
def driveEvents (env : Env) (jobId : String) : List Ev :=
  startEvts ++ tailEvents env jobId

/-- Job record views over the whole trace: the freshly created record
followed by the record after each event. -/
def jobViews (env : Env) (jobId : String) : List Job :=
  List.scanl applyEv (initJob jobId env.toolName) (driveEvents env jobId)

/-- Job record view returned by startJob to its caller: the shared
record as mutated by the synchronous segment. -/
def startJobReturn (jobId toolName : String) : Job :=
  startEvts.foldl applyEv (initJob jobId toolName)

/-- Final state of the job record after the whole trace. -/
def finalJobView (env : Env) (jobId : String) : Job :=
  (driveEvents env jobId).foldl applyEv (initJob jobId env.toolName)

/-- Job record views sent by each broadcastJobUpdate call, in order. -/
def collectPublished (j : Job) : List Ev → List Job
  | [] => []
  | e :: rest =>
    let j2 := applyEv j e
    match e with
    | Ev.publish => j2 :: collectPublished j2 rest
    | _ => collectPublished j2 rest

/-! ### Job registry (the private Map of AsyncJobManager) -/

/-- Embeds Map.prototype.set: replaces the value of an existing key in
place, otherwise appends the new binding. -/
def mapSet (m : List (String × Job)) (k : String) (v : Job) : List (String × Job) :=
  match m with
  | [] => [(k, v)]
  | (k2, v2) :: rest => if k2 == k then (k2, v) :: rest else (k2, v2) :: mapSet rest k v

/-- Embeds AsyncJobManager.getJob (integrated-server.ts lines 120 to
122): Map.prototype.get. -/
def getJob (m : List (String × Job)) (k : String) : Option Job :=
  (m.find? (fun p => p.1 == k)).map (fun p => p.2)

/-- Embeds AsyncJobManager.getAllJobs (integrated-server.ts lines 124
to 126): the values of the Map in insertion order. -/
def getAllJobs (m : List (String × Job)) : List Job :=
  m.map (fun p => p.2)

/-- Key uniqueness, which every JavaScript Map maintains. -/
def keysNodupB : List (String × Job) → Bool
  | [] => true
  | (k, _) :: rest => rest.all (fun p => !(p.1 == k)) && keysNodupB rest

/-- Registry well-formedness: keys are unique (a Map invariant) and
every stored record carries its key as its id field, which startJob
establishes by storing the job under its own id. -/
def wfReg (m : List (String × Job)) : Bool :=
  m.all (fun p => p.2.id == p.1) && keysNodupB m

/-- Registry content over a whole job run: the binding installed by
this.jobs.set at creation, as later mutated in place by the driving
task, so the final observation holds the final record. -/
def runJobRegistry (reg : List (String × Job)) (jobId : String) (env : Env) :
    List (String × Job) :=
  mapSet (mapSet reg jobId (initJob jobId env.toolName)) jobId (finalJobView env jobId)

/-! ### EventBroadcaster (broadcastJobUpdate, integrated-server.ts
lines 101 to 118, and broadcastExecutionUpdate, zkToolExecutor.ts lines
51 to 72) -/

/-- Connected transport client; readyState 1 is WebSocket OPEN. -/
structure WsClient where
  readyState : Nat
deriving DecidableEq

/-- Serialized job_update event: the object passed to JSON.stringify
once per publish (integrated-server.ts lines 102 to 111). -/
structure JobUpdateMsg where
  type : String
  jobId : String
  status : Status
  progress : Option Nat
  result : Option JobResult
  errorField : Option String
  timestamp : String
  server : String
deriving DecidableEq

/-- Builds the job_update message from the current job record. -/
def mkJobUpdateMsg (j : Job) (timestamp : String) : JobUpdateMsg :=
  { type := "job_update", jobId := j.id, status := j.status,
    progress := j.progress, result := j.result, errorField := j.error,
    timestamp := timestamp, server := "zk-pret-integrated-server" }

/-- Fan-out loop shared by both broadcast methods: the message is
serialized once before the loop, and each client receives it exactly
when its readyState is 1; other clients are skipped and never retried.
A send on an open socket, and the skip branch, raise nothing to the
caller, so the loop is a total function of its inputs. -/
def broadcastToClients (cs : List WsClient) (m : JobUpdateMsg) : List JobUpdateMsg :=
  match cs with
  | [] => []
  | c :: rest =>
    if c.readyState == 1 then m :: broadcastToClients rest m
    else broadcastToClients rest m

/-! ### Trace checkers used by the lifecycle claims -/

/-- Collapses consecutive equal statuses, yielding the sequence of
status values the job takes over its lifetime. -/
def dedupConsec : List Status → List Status
  | [] => []
  | [a] => [a]
  | a :: b :: rest =>
    if a == b then dedupConsec (b :: rest) else a :: dedupConsec (b :: rest)

/-- Boolean list-prefix test. -/
def isPrefListB : List Status → List Status → Bool
  | [], _ => true
  | _ :: _, [] => false
  | a :: as, b :: bs => a == b && isPrefListB as bs

/-- Status sequence allowed by the lifecycle: a prefix of pending,
running, completed or of pending, running, failed. -/
def statusesOk (l : List Status) : Bool :=
  isPrefListB l [Status.pending, Status.running, Status.completed] ||
  isPrefListB l [Status.pending, Status.running, Status.failed]

/-- Terminal statuses. -/
def isTerminalB (s : Status) : Bool :=
  s == Status.completed || s == Status.failed

/-- Checks that a terminal status is never followed by a different
status anywhere in the view sequence. -/
def noChangeAfterTerminal : List Status → Bool
  | [] => true
  | [_] => true
  | a :: b :: rest =>
    (if isTerminalB a then a == b else true) && noChangeAfterTerminal (b :: rest)

/-- Checks that endTime is set exactly on the views whose status is
terminal. -/
def endTimeIffTerminal (l : List Job) : Bool :=
  l.all (fun v => v.hasEndTime == isTerminalB v.status)

/-- Scans the event trace maintaining a flag for a status change whose
triggered publish has not yet occurred.  The scan fails if a second
status change arrives while the flag is set (a change published zero
times) or if the trace ends with the flag set; each change is consumed
by exactly the first publish that follows it, which is the
broadcastJobUpdate call issued at the change site.  Later publishes in
the same segment are triggered by progress mutations, not by the status
change. -/
def scpoAux (needPub : Bool) : List Ev → Bool
  | [] => !needPub
  | Ev.setStatus _ :: rest => !needPub && scpoAux true rest
  | Ev.publish :: rest => scpoAux false rest
  | _ :: rest => scpoAux needPub rest

/-- Every status change in the trace triggers exactly one publish. -/
def statusChangesPublishedOnce (evs : List Ev) : Bool :=
  scpoAux false evs

/-- Job record views an external observer can obtain: the value
returned by startJob, the snapshot carried by each broadcastJobUpdate
call, and the final record.  Between the adjacent synchronous
assignments inside one mutation batch (for example between job.status
and job.endTime on the failure path) no other code runs, so no observer
ever sees a half-updated record between them. -/
def observableViews (env : Env) (jobId : String) : List Job :=
  startJobReturn jobId env.toolName ::
    collectPublished (initJob jobId env.toolName) (driveEvents env jobId) ++
      [finalJobView env jobId]

/-- Environment in which the GLEIF capability rejects. -/
def envCapRaise : Env :=
  { toolName := "get-GLEIF-verification-with-sign", artifactPresent := true,
    funcPresent := true, cap := CapOutcome.raise "capability failure",
    now := "2026-02-03T00:00:00Z", elapsedMs := 7 }

/-- Environment in which the GLEIF capability never settles. -/
def envHang : Env :=
  { toolName := "get-GLEIF-verification-with-sign", artifactPresent := true,
    funcPresent := true, cap := CapOutcome.hang,
    now := "2026-02-03T00:00:00Z", elapsedMs := 1800000 }

/-- Environment in which the Basel3 capability never settles. -/
def envHangBasel : Env :=
  { toolName := "get-RiskLiquidityBasel3Optim-Merkle-verification-with-sign",
    artifactPresent := true, funcPresent := true, cap := CapOutcome.hang,
    now := "2026-02-03T00:00:00Z", elapsedMs := 0 }

/-- Environment requesting a tool name that is not in the catalog. -/
def envUnknown : Env :=
  { toolName := "does-not-exist", artifactPresent := true,
    funcPresent := true, cap := CapOutcome.ok true [],
    now := "2026-02-03T00:00:00Z", elapsedMs := 12 }

/-- Terminal job record used as the pre-existing registry entry in the
overwrite scenario. -/
def oldJobEx : Job :=
  { id := "job-1", toolName := "toolA", status := Status.completed,
    progress := some 100, result := none, error := none, hasEndTime := true }

/-! ### Lemmas about the extractor ordering dependency -/

/-- When the first-pattern regex does not match, the first pattern step
leaves the state untouched. -/
theorem bpTotal_of_matchNone (st : CaptureState) (out : String)
    (h : matchNumS "Total Companies: " out = none) : bpTotal st out = st := by
  simp only [bpTotal, h]
  split <;> rfl

/-- When no snapshot exists, the second pattern step is a no-op. -/
theorem bpCompliant_of_none (st : CaptureState) (out : String)
    (h : st.before = none) : bpCompliant st out = st := by
  simp only [bpCompliant, h]
  split
  · split
    · rename_i heq
      simp at heq
    · rfl
  · rfl

/-- When no snapshot exists, the third pattern step is a no-op. -/
theorem bpGlobal_of_none (st : CaptureState) (out : String)
    (h : st.before = none) : bpGlobal st out = st := by
  simp only [bpGlobal, h]
  split
  · split
    · rename_i heq
      simp at heq
    · rfl
  · rfl

/-- Combined before-pattern step with no snapshot and no first-pattern
match: the state is unchanged. -/
theorem beforePats_of_none (st : CaptureState) (out : String)
    (h : st.before = none) (hm : matchNumS "Total Companies: " out = none) :
    beforePats st out = st := by
  unfold beforePats
  rw [bpTotal_of_matchNone st out hm, bpCompliant_of_none st out h,
      bpGlobal_of_none st out h]

/-- The after-pattern steps never touch the before snapshot. -/
theorem apTotal_before (st : CaptureState) (out : String) :
    (apTotal st out).before = st.before := by
  unfold apTotal
  split
  · split
    · split <;> rfl
    · rfl
  · rfl

/-- The second after-pattern step never touches the before snapshot. -/
theorem apCompliant_before (st : CaptureState) (out : String) :
    (apCompliant st out).before = st.before := by
  unfold apCompliant
  split
  · split <;> rfl
  · rfl

/-- The third after-pattern step never touches the before snapshot. -/
theorem apGlobal_before (st : CaptureState) (out : String) :
    (apGlobal st out).before = st.before := by
  unfold apGlobal
  split
  · split <;> rfl
  · rfl

/-- The combined after-pattern step never touches the before snapshot. -/
theorem afterPats_before (st : CaptureState) (out : String) :
    (afterPats st out).before = st.before := by
  unfold afterPats
  rw [apGlobal_before, apCompliant_before, apTotal_before]

/-- The before marker step never touches the before snapshot. -/
theorem markBefore_before (st : CaptureState) (out : String) :
    (markBefore st out).before = st.before := by
  unfold markBefore
  split <;> rfl

/-- The after marker step never touches the before snapshot. -/
theorem markAfter_before (st : CaptureState) (out : String) :
    (markAfter st out).before = st.before := by
  unfold markAfter
  split <;> rfl

/-- The guarded before step preserves an absent snapshot when the first
pattern does not match. -/
theorem stepBefore_of_none (st : CaptureState) (out : String)
    (h : st.before = none) (hm : matchNumS "Total Companies: " out = none) :
    (stepBefore st out).before = none := by
  unfold stepBefore
  split
  · rw [beforePats_of_none st out h hm]
    exact h
  · exact h

/-- The guarded after step never touches the before snapshot. -/
theorem stepAfter_before (st : CaptureState) (out : String) :
    (stepAfter st out).before = st.before := by
  unfold stepAfter
  split
  · rw [afterPats_before]
  · rfl

/-- On a line where the first pattern does not match, a line processed
with no existing before snapshot still has no before snapshot. -/
theorem handleLine_before_none (st : CaptureState) (line : String)
    (h : st.before = none) (hm : matchNumS "Total Companies: " line = none) :
    (handleLine st line).before = none := by
  unfold handleLine
  rw [stepAfter_before, markAfter_before]
  apply stepBefore_of_none
  · rw [markBefore_before]
    exact h
  · exact hm

/-- C4: in the before-state capturing phase a snapshot is created only
when the first pattern, Total Companies, matches; matches of later
patterns with no existing snapshot are silently discarded.  On the
stream with the before marker and all three lines the before snapshot
holds 7, 5 and 80 together with the fixed defaults 0, 1 and
initial-hash; on the same stream without the Total Companies line no
snapshot is ever created at any point of the run. -/
theorem extraction_first_pattern_gate :
    (∀ (st : CaptureState) (line : String), st.before = none →
       matchNumS "Total Companies: " line = none →
       (handleLine st line).before = none) ∧
    (processLines initCapture
       [beforeMarker, "Total Companies: 7", "Compliant Companies: 5",
        "Global Compliance Score: 80"]).before =
      some { totalCompaniesTracked := "7", compliantCompaniesCount := some "5",
             globalComplianceScore := some "80", totalVerificationsGlobal := some "0",
             registryVersion := some "1", companiesRootHash := some "initial-hash" } ∧
    ((List.scanl handleLine initCapture
       [beforeMarker, "Compliant Companies: 5",
        "Global Compliance Score: 80"]).all
      (fun s => s.before.isNone && s.after.isNone)) = true := by
  refine ⟨fun st line h hm => handleLine_before_none st line h hm, ?_, ?_⟩
  · rfl
  · rfl

/-- C4 witness: a Compliant Companies line arriving before any Total
Companies line is discarded and creates no snapshot. -/
theorem extraction_first_pattern_gate_witness :
    (handleLine initCapture "Compliant Companies: 99").before = none :=
  extraction_first_pattern_gate.1 initCapture "Compliant Companies: 99" rfl rfl

/-! ### Lemmas about the job registry Map -/

/-- Map.set followed by Map.get on the same key yields the new value. -/
theorem getJob_mapSet_same (m : List (String × Job)) (k : String) (v : Job) :
    getJob (mapSet m k v) k = some v := by
  induction m with
  | nil => simp [getJob, mapSet, List.find?]
  | cons p rest ih =>
    obtain ⟨k2, v2⟩ := p
    cases h : k2 == k with
    | true => simp [getJob, mapSet, h, List.find?]
    | false =>
      simp only [mapSet, h, Bool.false_eq_true, if_false]
      simpa [getJob, List.find?, h] using ih

/-- In a registry whose records carry their key as their id, a
successful lookup returns a record whose id is the key. -/
theorem getJob_id (m : List (String × Job)) (k : String) (j : Job)
    (hids : ∀ p ∈ m, p.2.id = p.1) (h : getJob m k = some j) : j.id = k := by
  induction m with
  | nil => simp [getJob, List.find?] at h
  | cons p rest ih =>
    obtain ⟨k2, v2⟩ := p
    cases hk : k2 == k with
    | true =>
      simp only [getJob, List.find?, hk] at h
      have hv : v2 = j := by simpa using h
      have : v2.id = k2 := hids (k2, v2) (by simp)
      rw [← hv, this]
      exact eq_of_beq hk
    | false =>
      simp only [getJob, List.find?, hk] at h
      exact ih (fun p hp => hids p (List.mem_cons_of_mem _ hp)) h

/-- A record whose id is k is not among the values of a registry none
of whose keys is k, provided each value carries its key as id. -/
theorem not_mem_values_of_id (m : List (String × Job)) (k : String) (j : Job)
    (hid : j.id = k)
    (hids : ∀ p ∈ m, p.2.id = p.1)
    (hkeys : ∀ p ∈ m, p.1 ≠ k) :
    j ∉ getAllJobs m := by
  intro hmem
  simp only [getAllJobs, List.mem_map] at hmem
  obtain ⟨p, hp, hpj⟩ := hmem
  have h1 : p.2.id = p.1 := hids p hp
  have h2 : p.1 ≠ k := hkeys p hp
  rw [hpj] at h1
  rw [hid] at h1
  exact h2 h1.symm

/-- Unfolding of the Boolean well-formedness predicate into its three
propositional parts. -/
theorem wfReg_parts (m : List (String × Job)) (h : wfReg m = true) :
    (∀ p ∈ m, p.2.id = p.1) ∧ keysNodupB m = true := by
  simp only [wfReg, Bool.and_eq_true] at h
  refine ⟨fun p hp => ?_, h.2⟩
  have := (List.all_eq_true.mp h.1) p hp
  exact eq_of_beq this

/-- A Boolean predicate holding on every binding and on the new binding
under any spelling of the key still holds after Map.set. -/
theorem all_mapSet (m : List (String × Job)) (k : String) (v : Job)
    (q : String × Job → Bool) (hm : m.all q = true)
    (hk : ∀ k2, (k2 == k) = true → q (k2, v) = true) :
    (mapSet m k v).all q = true := by
  induction m with
  | nil =>
    simp only [mapSet, List.all_cons, List.all_nil, Bool.and_true]
    exact hk k (by simp)
  | cons p rest ih =>
    obtain ⟨k2, v2⟩ := p
    simp only [List.all_cons, Bool.and_eq_true] at hm
    cases h : k2 == k with
    | true =>
      simp only [mapSet, h, if_true, List.all_cons, Bool.and_eq_true]
      exact ⟨hk k2 h, hm.2⟩
    | false =>
      simp only [mapSet, h, Bool.false_eq_true, if_false, List.all_cons, Bool.and_eq_true]
      exact ⟨hm.1, ih hm.2⟩

/-- Key uniqueness is preserved by Map.set. -/
theorem keysNodupB_mapSet (m : List (String × Job)) (k : String) (v : Job)
    (h : keysNodupB m = true) : keysNodupB (mapSet m k v) = true := by
  induction m with
  | nil => simp [mapSet, keysNodupB]
  | cons p rest ih =>
    obtain ⟨k2, v2⟩ := p
    simp only [keysNodupB, Bool.and_eq_true] at h
    cases hk : k2 == k with
    | true =>
      simp only [mapSet, hk, if_true, keysNodupB, Bool.and_eq_true]
      exact ⟨h.1, h.2⟩
    | false =>
      simp only [mapSet, hk, Bool.false_eq_true, if_false, keysNodupB, Bool.and_eq_true]
      refine ⟨?_, ih h.2⟩
      refine all_mapSet rest k v _ h.1 ?_
      intro k3 hk3
      have hkk : k3 = k := eq_of_beq hk3
      simp only [Bool.not_eq_true']
      cases hq : k3 == k2 with
      | true =>
        have h1 : k3 = k2 := eq_of_beq hq
        rw [hkk] at h1
        rw [h1] at hk
        simp at hk
      | false => rfl

/-- Well-formedness is preserved when the stored value carries the key
as its id, as startJob arranges. -/
theorem wfReg_mapSet (m : List (String × Job)) (k : String) (v : Job)
    (hwf : wfReg m = true) (hv : v.id = k) : wfReg (mapSet m k v) = true := by
  simp only [wfReg, Bool.and_eq_true] at hwf ⊢
  constructor
  · refine all_mapSet m k v _ hwf.1 ?_
    intro k2 hk2
    have : k2 = k := eq_of_beq hk2
    subst this
    simp [hv]
  · exact keysNodupB_mapSet m k v hwf.2

/-- Overwriting a key makes the previously stored record unreachable
through the values of the registry. -/
theorem old_not_mem_after_set (m : List (String × Job)) (k : String)
    (v oldJob : Job) (hwf : wfReg m = true) (hold : getJob m k = some oldJob)
    (hne : oldJob ≠ v) : oldJob ∉ getAllJobs (mapSet m k v) := by
  induction m with
  | nil => simp [getJob, List.find?] at hold
  | cons p rest ih =>
    obtain ⟨k2, v2⟩ := p
    simp only [wfReg, List.all_cons, keysNodupB, Bool.and_eq_true] at hwf
    obtain ⟨⟨hid2, hidsRest⟩, hnodHead, hnodRest⟩ := hwf
    have hidsRestP : ∀ p ∈ rest, p.2.id = p.1 := by
      intro p hp
      exact eq_of_beq ((List.all_eq_true.mp hidsRest) p hp)
    have hkeysP : ∀ p ∈ rest, p.1 ≠ k2 := by
      intro p hp heq
      have := (List.all_eq_true.mp hnodHead) p hp
      rw [heq] at this
      simp at this
    cases hk : k2 == k with
    | true =>
      have hk2k : k2 = k := eq_of_beq hk
      have holdv : oldJob = v2 := by
        simp only [getJob, List.find?, hk] at hold
        have := hold
        simp at this
        exact this.symm
      subst hk2k
      simp only [mapSet, hk, if_true, getAllJobs, List.map_cons, List.mem_cons]
      rintro (h | h)
      · exact hne h
      · have hidOld : oldJob.id = k2 := by
          rw [holdv]
          exact eq_of_beq hid2
        exact not_mem_values_of_id rest k2 oldJob hidOld hidsRestP hkeysP
          (by simpa [getAllJobs] using h)
    | false =>
      have holdRest : getJob rest k = some oldJob := by
        simpa only [getJob, List.find?, hk] using hold
      have hwfRest : wfReg rest = true := by
        simp only [wfReg, Bool.and_eq_true]
        exact ⟨hidsRest, hnodRest⟩
      have hidOld : oldJob.id = k := getJob_id rest k oldJob hidsRestP holdRest
      simp only [mapSet, hk, Bool.false_eq_true, if_false, getAllJobs, List.map_cons,
        List.mem_cons]
      rintro (h | h)
      · have hv2 : v2.id = k2 := eq_of_beq hid2
        rw [h] at hidOld
        rw [hv2] at hidOld
        rw [hidOld] at hk
        simp at hk
      · exact ih hwfRest holdRest (by simpa [getAllJobs] using h)

/-- C10: startJob with a jobId already present in the registry silently
replaces the stored record with the new pending Job: getJob now yields
the new record, the old record is no longer among the values returned
by getAllJobs, and the registry stays well formed; the overwrite itself
is a total operation that reports no error. -/
theorem startJob_overwrites_existing (reg : List (String × Job))
    (jid tname : String) (oldJob : Job)
    (hwf : wfReg reg = true) (hold : getJob reg jid = some oldJob) :
    getJob (mapSet reg jid (initJob jid tname)) jid = some (initJob jid tname) ∧
    (oldJob ≠ initJob jid tname →
       oldJob ∉ getAllJobs (mapSet reg jid (initJob jid tname))) ∧
    (initJob jid tname).status = Status.pending ∧
    wfReg (mapSet reg jid (initJob jid tname)) = true := by
  refine ⟨getJob_mapSet_same reg jid (initJob jid tname), ?_, rfl, ?_⟩
  · intro hne
    exact old_not_mem_after_set reg jid (initJob jid tname) oldJob hwf hold hne
  · exact wfReg_mapSet reg jid (initJob jid tname) hwf rfl

/-- C10 witness: overwriting the stored terminal record job-1 with a
fresh pending job for the same id makes getJob return the new record. -/
theorem startJob_overwrites_existing_witness :
    getJob (mapSet [("job-1", oldJobEx)] "job-1" (initJob "job-1" "toolB")) "job-1" =
      some (initJob "job-1" "toolB") ∧
    oldJobEx ∉ getAllJobs (mapSet [("job-1", oldJobEx)] "job-1" (initJob "job-1" "toolB")) := by
  have h := startJob_overwrites_existing [("job-1", oldJobEx)] "job-1" "toolB" oldJobEx
    (by decide) (by decide)
  exact ⟨h.1, h.2.1 (by decide)⟩

/-- C2 (amended): an unknown tool name makes executeIntegratedTool
reject with a message that enumerates the full catalog, and the
enumeration coincides with getAvailableTools; executeTool converts this
rejection into a resolved record with success false carrying the same
message, so nothing surfaces to the caller as an exception; and
startJob still stores a fresh pending Job under the requested id before
any validation occurs. -/
theorem unknown_tool_resolved (env : Env)
    (h : toolScriptMap env.toolName = none) :
    executeIntegratedTool env = some (Except.error (unknownToolMsg env.toolName)) ∧
    executeTool env = some (Except.ok
      { success := false,
        result := ToolPayload.failed
          { status := "failed", zkProofGenerated := false, timestamp := env.now,
            error := unknownToolMsg env.toolName,
            executionMode := "integrated-server-direct-only" },
        executionTime := timeStr env }) ∧
    unknownToolMsg env.toolName =
      "Unknown tool: " ++ env.toolName ++ ". Available tools: " ++
        String.intercalate ", " getAvailableTools ∧
    (∀ (reg : List (String × Job)) (jid : String),
       getJob (mapSet reg jid (initJob jid env.toolName)) jid =
         some (initJob jid env.toolName) ∧
       (initJob jid env.toolName).status = Status.pending) := by
  have h1 : executeIntegratedTool env = some (Except.error (unknownToolMsg env.toolName)) := by
    simp [executeIntegratedTool, h]
  refine ⟨h1, ?_, ?_, ?_⟩
  · simp [executeTool, h1]
  · have hkeys : toolScriptPairs.map (fun p => p.1) = getAvailableTools := by rfl
    rw [unknownToolMsg, hkeys]
  · intro reg jid
    exact ⟨getJob_mapSet_same reg jid (initJob jid env.toolName), rfl⟩

/-- C2 witness: the amended behaviour evaluated at the unknown tool
name does-not-exist. -/
theorem unknown_tool_resolved_witness :
    executeIntegratedTool envUnknown =
      some (Except.error (unknownToolMsg "does-not-exist")) :=
  (unknown_tool_resolved envUnknown rfl).1

/-- C2 counterexample: after submitting the unknown tool name
does-not-exist through startJob, a Job record for job-1 is present in
the registry and finalises with status completed, refuting the claim
that the failure surfaces synchronously and that no Job record is left
behind. -/
theorem unknown_tool_leaves_job_behind :
    (getJob (runJobRegistry [] "job-1" envUnknown) "job-1").isSome = true ∧
    getJob (runJobRegistry [] "job-1" envUnknown) "job-1" =
      some (finalJobView envUnknown "job-1") ∧
    (finalJobView envUnknown "job-1").status = Status.completed := by
  exact ⟨rfl, rfl, rfl⟩

/-- C1 (amended): when the driving task's capability invocation fails
inside the dispatcher (artifact not found, capability exception, or the
unknown-tool and missing-export throws), executeTool catches the error
and resolves with success false, so the JobManager finalises the Job
with status completed, leaves Job.error unset, sets endTime, embeds the
failure message inside job.result, and broadcasts the final state as
the last publish.  The failed status and Job.error would be reached
only if executeTool itself rejected, which it never does. -/
theorem dispatcher_failure_completes_job (env : Env) (jid m : String)
    (h : executeIntegratedTool env = some (Except.error m)) :
    finalJobView env jid =
      { id := jid, toolName := env.toolName, status := Status.completed,
        progress := some 100,
        result := some
          { toolResult :=
              { success := false,
                result := ToolPayload.failed
                  { status := "failed", zkProofGenerated := false,
                    timestamp := env.now, error := m,
                    executionMode := "integrated-server-direct-only" },
                executionTime := timeStr env },
            executionTimeMs := env.elapsedMs, jobId := jid,
            completedAt := env.now, mode := "async-integrated-server" },
        error := none, hasEndTime := true } ∧
    (collectPublished (initJob jid env.toolName) (driveEvents env jid)).getLast? =
      some (finalJobView env jid) := by
  have hT : executeTool env = some (Except.ok
      { success := false,
        result := ToolPayload.failed
          { status := "failed", zkProofGenerated := false, timestamp := env.now,
            error := m, executionMode := "integrated-server-direct-only" },
        executionTime := timeStr env }) := by
    simp [executeTool, h]
  constructor
  · simp only [finalJobView, driveEvents, tailEvents, hT, startEvts]
    rfl
  · simp only [finalJobView, driveEvents, tailEvents, hT, startEvts]
    rfl

/-- C1 witness: the amended behaviour evaluated for a GLEIF run whose
capability rejects with the message capability failure. -/
theorem dispatcher_failure_completes_job_witness :
    (collectPublished (initJob "job-1" envCapRaise.toolName)
        (driveEvents envCapRaise "job-1")).getLast? =
      some (finalJobView envCapRaise "job-1") :=
  (dispatcher_failure_completes_job envCapRaise "job-1" "capability failure" rfl).2

/-- C1 counterexample: a capability error during a GLEIF run leaves the
Job with status completed, not failed, and with Job.error unset, so the
claim that such failures finalise the Job as failed with the message in
Job.error is false on this input. -/
theorem capability_error_job_not_failed :
    (finalJobView envCapRaise "job-1").status = Status.completed ∧
    (finalJobView envCapRaise "job-1").status ≠ Status.failed ∧
    (finalJobView envCapRaise "job-1").error = none := by
  refine ⟨rfl, ?_, rfl⟩
  intro h
  exact absurd h (by decide)

/-- C9 (amended): executeTool never rejects; whenever the inner
pipeline settles, executeTool resolves with a record holding success,
result and executionTime; and when the inner pipeline rejected, the
resolved record has success false and a result carrying status failed,
the error message and a timestamp.  When the capability never settles,
executeTool never resolves either, because the timeout cannot reject
the awaited promise. -/
theorem executeTool_never_rejects (env : Env) :
    (∀ m, executeTool env ≠ some (Except.error m)) ∧
    (∀ m, executeIntegratedTool env = some (Except.error m) →
       executeTool env = some (Except.ok
         { success := false,
           result := ToolPayload.failed
             { status := "failed", zkProofGenerated := false,
               timestamp := env.now, error := m,
               executionMode := "integrated-server-direct-only" },
           executionTime := timeStr env })) ∧
    (∀ r, executeIntegratedTool env = some (Except.ok r) →
       executeTool env = some (Except.ok
         { success := r.success, result := ToolPayload.ok r.result,
           executionTime := timeStr env })) := by
  cases h : executeIntegratedTool env with
  | none =>
    refine ⟨fun m => by simp [executeTool, h], fun m hm => by simp [h] at hm,
      fun r hr => by simp [h] at hr⟩
  | some x =>
    cases x with
    | error m =>
      refine ⟨fun m2 => by simp [executeTool, h], ?_, fun r hr => by simp [h] at hr⟩
      intro m2 hm2
      have heq : m = m2 := by simpa using hm2
      subst heq
      simp [executeTool, h]
    | ok r =>
      refine ⟨fun m => by simp [executeTool, h], fun m hm => by simp [h] at hm, ?_⟩
      intro r2 hr2
      have heq : r = r2 := by simpa using hr2
      subst heq
      simp [executeTool, h]

/-- C9 witness: for the unknown tool does-not-exist the inner pipeline
rejects, and executeTool resolves with the uniform failure record. -/
theorem executeTool_never_rejects_witness :
    executeTool envUnknown = some (Except.ok
      { success := false,
        result := ToolPayload.failed
          { status := "failed", zkProofGenerated := false,
            timestamp := envUnknown.now, error := unknownToolMsg "does-not-exist",
            executionMode := "integrated-server-direct-only" },
        executionTime := timeStr envUnknown }) :=
  (executeTool_never_rejects envUnknown).2.1 (unknownToolMsg "does-not-exist") rfl

/-- C9 counterexample: with a capability that never settles, executeTool
never resolves at all, refuting the claim that it always resolves to a
record. -/
theorem executeTool_may_never_resolve :
    executeTool envHangBasel = none := by
  rfl

/-- C3: evaluation at the failing input, a GLEIF capability that never
returns.  The promise of executeTool never settles because the timer
callback merely throws into the event loop, so the Job never reaches
status failed: every view of the job record in the whole trace has a
status other than failed, and the final view is stuck at running with
no error recorded. -/
theorem hang_timeout_never_fails :
    executeTool envHang = none ∧
    ((jobViews envHang "job-1").map Job.status).all
      (fun s => !(s == Status.failed)) = true ∧
    (finalJobView envHang "job-1").status = Status.running ∧
    (finalJobView envHang "job-1").error = none := by
  exact ⟨rfl, rfl, rfl, rfl⟩

/-- C5 (amended): startJob never blocks on job completion, because the
driving task suspends at the await of executeTool and the trace up to
that suspension is the fixed synchronous segment startEvts, a prefix of
every full trace regardless of the capability outcome.  The Job is
created with status pending and the first broadcast carries that
pending view, but the record returned to the caller has already been
mutated by the synchronous segment and shows status running with
progress 10. -/
theorem startJob_sync_view (env : Env) (jid : String) :
    List.IsPrefix startEvts (driveEvents env jid) ∧
    (startJobReturn jid env.toolName).status = Status.running ∧
    (startJobReturn jid env.toolName).progress = some 10 ∧
    (startJobReturn jid env.toolName).id = jid ∧
    collectPublished (initJob jid env.toolName) startEvts =
      [initJob jid env.toolName,
       { initJob jid env.toolName with status := Status.running, progress := some 0 },
       { initJob jid env.toolName with status := Status.running, progress := some 10 }] := by
  exact ⟨⟨tailEvents env jid, rfl⟩, rfl, rfl, rfl, rfl⟩

/-- C5 counterexample: the Job record returned by startJob does not
have status pending at the moment startJob returns. -/
theorem startJob_return_not_pending :
    (startJobReturn "job-1" "get-GLEIF-verification-with-sign").status ≠
      Status.pending := by
  decide

/-- C6: over every environment, the statuses taken by the job record
across the whole trace form a prefix of pending, running, completed or
of pending, running, failed; a terminal status is never followed by a
different one; and on every observable view of the record (the startJob
return value, the broadcast snapshots, and the final record) endTime is
set exactly when the status is terminal.  Between the adjacent
synchronous assignments of one finalisation batch no other code runs,
so the observable views are the only ones any reader can obtain. -/
theorem job_lifecycle_monotone (env : Env) (jid : String) :
    statusesOk (dedupConsec ((jobViews env jid).map Job.status)) = true ∧
    noChangeAfterTerminal ((jobViews env jid).map Job.status) = true ∧
    endTimeIffTerminal (observableViews env jid) = true := by
  cases hT : executeTool env with
  | none =>
    refine ⟨?_, ?_, ?_⟩ <;>
      (simp only [jobViews, observableViews, finalJobView, driveEvents, tailEvents, hT]; rfl)
  | some x =>
    cases x with
    | error m =>
      refine ⟨?_, ?_, ?_⟩ <;>
        (simp only [jobViews, observableViews, finalJobView, driveEvents, tailEvents, hT]; rfl)
    | ok r =>
      refine ⟨?_, ?_, ?_⟩ <;>
        (simp only [jobViews, observableViews, finalJobView, driveEvents, tailEvents, hT]; rfl)

/-- C8: in every trace, each status change is immediately answered by
exactly one broadcastJobUpdate call before any further status change:
the scan designates for each setStatus event the publish issued at the
change site (the first publish that follows it) and verifies that no
change goes unpublished and none waits for a second change.  The extra
publish inside the running segment is triggered by the progress
mutation of the same record, not by a status change. -/
theorem status_change_published_once (env : Env) (jid : String) :
    statusChangesPublishedOnce (driveEvents env jid) = true := by
  cases hT : executeTool env with
  | none =>
    simp only [driveEvents, tailEvents, hT]
    rfl
  | some x =>
    cases x with
    | error m =>
      simp only [driveEvents, tailEvents, hT]
      rfl
    | ok r =>
      simp only [driveEvents, tailEvents, hT]
      rfl

/-- C7: a publish serializes the event once and delivers that single
message to exactly the currently open subscribers, in order, skipping
every other subscriber without retry; with three open clients and one
closed client exactly three deliveries occur.  The loop is a total
function of its inputs, so no delivery failure reaches the publisher. -/
theorem publish_fanout (cs : List WsClient) (m : JobUpdateMsg) :
    broadcastToClients cs m =
      (cs.filter (fun c => c.readyState == 1)).map (fun _ => m) ∧
    (broadcastToClients cs m).length =
      (cs.filter (fun c => c.readyState == 1)).length ∧
    (broadcastToClients
      [{ readyState := 1 }, { readyState := 1 },
       { readyState := 3 }, { readyState := 1 }] m).length = 3 := by
  have hmain : ∀ l : List WsClient, broadcastToClients l m =
      (l.filter (fun c => c.readyState == 1)).map (fun _ => m) := by
    intro l
    induction l with
    | nil => rfl
    | cons c rest ih =>
      cases h : c.readyState == 1 with
      | true => simp [broadcastToClients, List.filter_cons, h, ih]
      | false => simp [broadcastToClients, List.filter_cons, h, ih]
  refine ⟨hmain cs, ?_, rfl⟩
  rw [hmain cs, List.length_map]

/-- C7 witness: the fan-out evaluated with three open subscribers and
one closed subscriber on a concrete job_update message. -/
theorem publish_fanout_witness :
    (broadcastToClients
      [{ readyState := 1 }, { readyState := 1 },
       { readyState := 3 }, { readyState := 1 }]
      (mkJobUpdateMsg (initJob "job-1" "toolA") "2026-02-03T00:00:00Z")).length = 3 :=
  (publish_fanout [{ readyState := 1 }, { readyState := 1 },
      { readyState := 3 }, { readyState := 1 }]
    (mkJobUpdateMsg (initJob "job-1" "toolA") "2026-02-03T00:00:00Z")).2.2
